import Mathlib

/-!
Verification development for the SeamlessTransferApp repository (Go).

The development shallowly embeds the core of the system:
  * the Balance Mutator (`account-service` application layer:
    `validateAmount`, `HandleTransactionSubmitted`),
  * the Transfer Initiator and Status Reconciler (`transaction-service`
    application layer: `SubmitTransaction`, `HandleTransactionCompleted`,
    `HandleTransactionFailed`),
  * the event channel's retry/dead-letter envelope
    (`SubscribeToTransactionEvents` in the account service's message broker),
  * the HTTP status mapping of `GetAccount` together with the Postgres
    account repository's `GetByID`.

Monetary amounts in the Go code are handled with `math/big`'s `Float` at the
default precision that `SetString` assigns (64 bits of mantissa, rounding to
nearest with ties to even), and balances are persisted with `Text('f', 2)`
(two fractional digits, correctly rounded, ties to even on the digit string).
The embedding models a `big.Float` value as either an exact rational carrying
the 64-bit rounding explicitly, or an infinity (`SetString` accepts
"Inf"/"inf" with an optional sign).  Rationals are represented by the
unnormalised fraction type `Frac` (integer numerator, positive natural
denominator, no gcd reduction) so that every operation is a plain
integer computation; the function `Frac.val` interprets a `Frac` in `ℚ`
and all specification-level reasoning happens through it.
-/

namespace SeamlessTransfer

/-- An unnormalised fraction: an integer numerator over a positive natural
denominator.  Arithmetic never reduces fractions, so every operation is an
integer computation. -/
structure Frac where
  num : ℤ
  den : ℕ+
deriving DecidableEq

namespace Frac

/-- The rational value of a fraction. -/
def val (x : Frac) : ℚ := (x.num : ℚ) / ((x.den : ℕ) : ℚ)

/-- Embed an integer. -/
def ofInt (n : ℤ) : Frac := ⟨n, 1⟩

/-- Multiplication of fractions. -/
def mul (x y : Frac) : Frac := ⟨x.num * y.num, x.den * y.den⟩

/-- Addition of fractions. -/
def add (x y : Frac) : Frac :=
  ⟨x.num * ((y.den : ℕ) : ℤ) + y.num * ((x.den : ℕ) : ℤ), x.den * y.den⟩

/-- Subtraction of fractions. -/
def sub (x y : Frac) : Frac :=
  ⟨x.num * ((y.den : ℕ) : ℤ) - y.num * ((x.den : ℕ) : ℤ), x.den * y.den⟩

/-- Negation. -/
def neg (x : Frac) : Frac := ⟨-x.num, x.den⟩

/-- Absolute value. -/
def abs (x : Frac) : Frac := ⟨(x.num.natAbs : ℤ), x.den⟩

/-- Floor of the value, computed by integer division. -/
def floor (x : Frac) : ℤ := x.num / ((x.den : ℕ) : ℤ)

/-- Strict comparison by cross multiplication. -/
def blt (x y : Frac) : Bool := x.num * ((y.den : ℕ) : ℤ) < y.num * ((x.den : ℕ) : ℤ)

@[simp] theorem val_mk (n : ℤ) (d : ℕ+) : val ⟨n, d⟩ = (n : ℚ) / ((d : ℕ) : ℚ) := rfl

end Frac

/-- Structurally recursive base-2 logarithm on naturals (the fuel argument
makes it kernel-computable; `nlog2 n` is the floor of log2 for `n > 0`). -/
def nlog2Aux : ℕ → ℕ → ℕ
  | 0, _ => 0
  | fuel + 1, n => if 2 ≤ n then nlog2Aux fuel (n / 2) + 1 else 0

/-- Floor base-2 logarithm. -/
def nlog2 (n : ℕ) : ℕ := nlog2Aux n n

/-- The fraction 2 ^ s for an integer s. -/
def pow2 (s : ℤ) : Frac :=
  if 0 ≤ s then ⟨((2 : ℕ) ^ s.toNat : ℕ), 1⟩
  else ⟨1, ⟨2 ^ (-s).toNat, by positivity⟩⟩

@[simp] theorem val_pow2 (s : ℤ) : (pow2 s).val = (2 : ℚ) ^ s := by
  by_cases h : 0 ≤ s
  · simp only [pow2, if_pos h, Frac.val_mk, PNat.one_coe, Nat.cast_one, div_one]
    push_cast
    rw [← zpow_natCast (2 : ℚ) s.toNat, Int.toNat_of_nonneg h]
  · simp only [pow2, if_neg h, Frac.val_mk, PNat.mk_coe]
    push_cast
    rw [← zpow_natCast (2 : ℚ) (-s).toNat, Int.toNat_of_nonneg (by omega : (0:ℤ) ≤ -s)]
    rw [one_div, ← zpow_neg, neg_neg]

theorem pow2_val_pos (s : ℤ) : 0 < (pow2 s).val := by
  rw [val_pow2]
  positivity

/-- Floor of log2 of the value of a positive fraction, computed from the
bit lengths of numerator and denominator with a one-step correction. -/
def qlog2F (a : Frac) : ℤ :=
  let l : ℤ := (nlog2 a.num.natAbs : ℤ) - (nlog2 (a.den : ℕ) : ℤ)
  if a.blt (pow2 l) then l - 1
  else if a.blt (pow2 (l + 1)) then l
  else l + 1

/-- Round the value of a fraction to the nearest integer, ties to even
(the rounding used both by `big.Float` operations at a fixed precision and
by the decimal formatting in `Text`). -/
def roundHalfEven (y : Frac) : ℤ :=
  let m0 := y.floor
  let t : ℤ := 2 * (y.num - m0 * ((y.den : ℕ) : ℤ))
  if ((y.den : ℕ) : ℤ) < t then m0 + 1
  else if t < ((y.den : ℕ) : ℤ) then m0
  else if m0 % 2 = 0 then m0 else m0 + 1

/-- Round a fraction to a binary floating-point value with a 64-bit
mantissa, to nearest, ties to even: the rounding `math/big` applies to
every `Float` with precision 64 (the default assigned by `SetString`). -/
def round64 (x : Frac) : Frac :=
  if x.num = 0 then ⟨0, 1⟩
  else
    let a := x.abs
    let s : ℤ := 63 - qlog2F a
    let m : ℤ := roundHalfEven (a.mul (pow2 s))
    let r := (Frac.ofInt m).mul (pow2 (-s))
    if x.num < 0 then r.neg else r

/-- The fraction 10 ^ s for an integer s (used for decimal exponents). -/
def pow10 (s : ℤ) : Frac :=
  if 0 ≤ s then ⟨((10 : ℕ) ^ s.toNat : ℕ), 1⟩
  else ⟨1, ⟨10 ^ (-s).toNat, by positivity⟩⟩

/-- Numeric value of an alphanumeric digit character (0-9, a-z, A-Z) as
Go's number scanner reads it; whether it is a valid digit depends on the
mantissa base. -/
def charDigit (c : Char) : Option ℕ :=
  if '0' ≤ c ∧ c ≤ '9' then some (c.toNat - 48)
  else if 'a' ≤ c ∧ c ≤ 'z' then some (c.toNat - 87)
  else if 'A' ≤ c ∧ c ≤ 'Z' then some (c.toNat - 55)
  else none

/-- Consume an optional leading sign, as `math/big`'s scanner does.
Returns whether the sign was a minus, and the remaining characters. -/
def readSign : List Char → Bool × List Char
  | '-' :: rest => (true, rest)
  | '+' :: rest => (false, rest)
  | cs => (false, cs)

/-- Scan a run of digits in the given base with underscore separators, as
`math/big`'s base-0 scanner does: an underscore may stand only between two
successive digits (`pendingSep` records that the previous character was an
underscore and a digit must follow).  A character that is alphanumeric but
not a digit of the base ends the run, like any other character.  Returns
the accumulated value, the number of digits consumed, and the rest;
`none` on a misplaced underscore. -/
def scanDigits (base : ℕ+) : List Char → ℕ → ℕ → Bool → Option (ℕ × ℕ × List Char)
  | [], acc, count, pendingSep =>
      if pendingSep then none else some (acc, count, [])
  | c :: rest, acc, count, pendingSep =>
      match charDigit c with
      | some d =>
          if d < (base : ℕ) then
            scanDigits base rest (acc * (base : ℕ) + d) (count + 1) false
          else if pendingSep then none
          else some (acc, count, c :: rest)
      | none =>
          if c = '_' then
            if pendingSep ∨ count = 0 then none
            else scanDigits base rest acc count true
          else if pendingSep then none
          else some (acc, count, c :: rest)

/-- Determine the mantissa base from the leading characters, as
`big.Float.Parse` with base argument 0 does: "0b"/"0B" selects base 2,
"0o"/"0O" base 8, "0x"/"0X" base 16, anything else base 10 with no
characters consumed (a leading "0" is a regular digit, not an octal
marker).  Returns the base, the remaining characters, and whether a base
marker was consumed. -/
def detectBase : List Char → ℕ+ × List Char × Bool
  | '0' :: c :: rest =>
      if c = 'b' ∨ c = 'B' then (2, rest, true)
      else if c = 'o' ∨ c = 'O' then (8, rest, true)
      else if c = 'x' ∨ c = 'X' then (16, rest, true)
      else (10, '0' :: c :: rest, false)
  | cs => (10, cs, false)

/-- Exact-value parser for the finite part of the `big.Float` text syntax
with base argument 0, as `SetString` uses it (`z.Parse(s, 0)`): an
optional sign; a mantissa in base 2, 8, 10 or 16 according to the "0b" /
"0o" / "0x" marker (base 10 without one), made of digits of that base
with at most one dot, at least one digit, and underscore separators
between successive digits (one underscore may also stand between the
base marker and the first digit); then an optional exponent `e`/`E`
(a power of ten) or `p`/`P` (a power of two) with an optional sign and at
least one decimal digit, whose literal value must be representable as an
int64 (`strconv.ParseInt`, so in [-2^63, 2^63-1]); the whole string must
be consumed.  For a base-16 mantissa `e`/`E` are consumed as digits, so
only `p`/`P` can introduce its exponent.  Returns the exact rational
value; `Parse` then rounds it to the 64-bit precision and saturates the
exponent range, modelled by `satRound64`. -/
def parseExactCore (cs : List Char) : Option Frac :=
  let sres := readSign cs
  let db := detectBase sres.2
  let base := db.1
  let cs1 :=
    match db.2.2, db.2.1 with
    | true, '_' :: c :: r =>
        match charDigit c with
        | some d => if d < (base : ℕ) then c :: r else '_' :: c :: r
        | none => '_' :: c :: r
    | _, cs1 => cs1
  match scanDigits base cs1 0 0 false with
  | none => none
  | some (ipVal, ipCount, cs2) =>
    let fres : Option (ℕ × ℕ × List Char) :=
      match cs2 with
      | '.' :: rest => scanDigits base rest 0 0 false
      | _ => some (0, 0, cs2)
    match fres with
    | none => none
    | some (fpVal, fpCount, cs3) =>
      if ipCount = 0 ∧ fpCount = 0 then none
      else
        let mant : Frac :=
          ⟨((ipVal * (base : ℕ) ^ fpCount + fpVal : ℕ) : ℤ), base ^ fpCount⟩
        let signed : Frac := if sres.1 then mant.neg else mant
        match cs3 with
        | [] => some signed
        | c :: rest =>
          if c = 'e' ∨ c = 'E' ∨ c = 'p' ∨ c = 'P' then
            let eres := readSign rest
            match scanDigits 10 eres.2 0 0 false with
            | none => none
            | some (ev, eCount, rest2) =>
              if eCount = 0 ∨ ¬ rest2.isEmpty then none
              else if (if eres.1 then 9223372036854775808 < ev
                  else 9223372036854775807 < ev) then none
              else
                let e : ℤ := if eres.1 then -(ev : ℤ) else (ev : ℤ)
                if c = 'p' ∨ c = 'P' then some (signed.mul (pow2 e))
                else some (signed.mul (pow10 e))
          else none

/-- Exact rational value of a number string, when it parses under the
finite `big.Float` base-0 syntax. -/
def decExact (s : String) : Option Frac := parseExactCore s.data

/-- A `math/big` `Float` as the balance-mutation code uses it: either a
finite value (held at 64-bit precision) or an infinity.  `SetString`
accepts exactly "Inf"/"inf" with an optional sign as the infinite forms.
The model has no negative zero: Go's ±0 are both represented by the zero
fraction, which agrees with `Sign()` (0 for both) and with every
comparison the embedded handlers perform. -/
inductive MutFloat where
  | fin (x : Frac)
  | inf (neg : Bool)
deriving DecidableEq

/-- Rounding and exponent saturation applied by `Parse` to the exact
scanned value: round to 64 bits of precision; a binary exponent above
`MaxExp` (2^31 - 1) overflows to an infinity of the same sign, one below
`MinExp` (-2^31) underflows to (±)0.  `big.Float` represents a nonzero
value as `mantissa in [0.5, 1) times 2^exp`, so `exp` is the floor log2
of the absolute value plus one. -/
def satRound64 (f : Frac) : MutFloat :=
  let r := round64 f
  if r.num = 0 then .fin r
  else
    let e := qlog2F r.abs
    if 2147483647 ≤ e then .inf (r.num < 0)
    else if e + 1 < -2147483648 then .fin ⟨0, 1⟩
    else .fin r

/-- Model of `new(big.Float).SetString(s)`: the special infinity forms, or
the exact parsed value rounded to 64 bits of precision with the exponent
range saturated; `none` when `ok` is false (in which case the Go code
holds a nil `*big.Float`). -/
def parseBigFloat (s : String) : Option MutFloat :=
  if s = "Inf" ∨ s = "inf" ∨ s = "+Inf" ∨ s = "+inf" then some (.inf false)
  else if s = "-Inf" ∨ s = "-inf" then some (.inf true)
  else
    match decExact s with
    | none => none
    | some f => some (satRound64 f)

/-- Sign of a `big.Float` as returned by `Sign()`. -/
def mutSign : MutFloat → ℤ
  | .fin x => if x.num < 0 then -1 else if x.num = 0 then 0 else 1
  | .inf true => -1
  | .inf false => 1

/-- Whether `a.Cmp(b) < 0` for two `big.Float` values. -/
def mutLt (a b : MutFloat) : Bool :=
  match a, b with
  | .fin x, .fin y => x.blt y
  | .fin _, .inf n => !n
  | .inf n, .fin _ => n
  | .inf n1, .inf n2 => n1 && !n2

/-- Model of `z.Sub(x, y)` on a receiver of precision 64: exact difference
rounded to 64 bits; `none` models the `ErrNaN` panic on subtracting two
like-signed infinities. -/
def mutSub : MutFloat → MutFloat → Option MutFloat
  | .fin x, .fin y => some (.fin (round64 (x.sub y)))
  | .inf n, .fin _ => some (.inf n)
  | .fin _, .inf n => some (.inf (!n))
  | .inf n1, .inf n2 => if n1 = n2 then none else some (.inf n1)

/-- Model of `z.Add(x, y)` on a receiver of precision 64. -/
def mutAdd : MutFloat → MutFloat → Option MutFloat
  | .fin x, .fin y => some (.fin (round64 (x.add y)))
  | .inf n, .fin _ => some (.inf n)
  | .fin _, .inf n => some (.inf n)
  | .inf n1, .inf n2 => if n1 = n2 then some (.inf n1) else none

/-- Decimal rendering of a number of cents with exactly two fractional
digits, e.g. `renderCents 6000 = "60.00"`. -/
def renderCents (n : ℕ) : String :=
  Nat.repr (n / 100) ++ "." ++
    (if n % 100 < 10 then "0" ++ Nat.repr (n % 100) else Nat.repr (n % 100))

/-- Model of `big.Float.Text('f', 2)` on a finite value: the absolute value
scaled to cents is rounded to the nearest integer (ties to even, as in
`math/big`'s decimal rounding) and rendered with two fractional digits,
with a leading minus sign taken from the float's sign. -/
def text2F (x : Frac) : String :=
  (if x.num < 0 then "-" else "") ++
    renderCents (roundHalfEven ((x.abs).mul (Frac.ofInt 100))).toNat

/-- Model of `Text('f', 2)` including the infinite forms. -/
def mutText2 : MutFloat → String
  | .fin x => text2F x
  | .inf false => "+Inf"
  | .inf true => "-Inf"

/-- Whitespace as recognised by Go's `unicode.IsSpace` (the White_Space
property, the set `strings.TrimSpace` strips): tab through carriage
return, space, NEL, no-break space, Ogham space mark, the U+2000-U+200A
spaces, line and paragraph separators, narrow no-break space, medium
mathematical space and ideographic space. -/
def goIsSpace (c : Char) : Bool :=
  (9 ≤ c.toNat ∧ c.toNat ≤ 13) ∨ c.toNat = 32 ∨ c.toNat = 133 ∨ c.toNat = 160 ∨
    c.toNat = 5760 ∨ (8192 ≤ c.toNat ∧ c.toNat ≤ 8202) ∨ c.toNat = 8232 ∨
    c.toNat = 8233 ∨ c.toNat = 8239 ∨ c.toNat = 8287 ∨ c.toNat = 12288

/-- Model of `strings.TrimSpace`. -/
def goTrim (s : String) : String :=
  ⟨((s.data.dropWhile goIsSpace).reverse.dropWhile goIsSpace).reverse⟩

/-- Outcome of the account service's `validateAmount`. -/
inductive AmountCheck where
  | ok
  | invalidAmount
  | negativeAmount
deriving DecidableEq

/-- Model of `validateAmount` in the account service: trim whitespace,
reject the empty string, parse with `big.Float.SetString`, reject a
negative sign.  A value of exactly zero passes (`Sign() < 0` is the only
sign check). -/
def validateAmount (s : String) : AmountCheck :=
  let t := goTrim s
  if t = "" then .invalidAmount
  else
    match parseBigFloat t with
    | none => .invalidAmount
    | some f => if mutSign f < 0 then .negativeAmount else .ok

/-- An account row: identifier and balance kept as its stored text, exactly
as the `accounts` table stores `balance TEXT`. -/
structure Account where
  id : ℤ
  balance : String
deriving DecidableEq

/-- The accounts store, keyed by account id. -/
abbrev AccountStore := List Account

/-- Model of the SQL `SELECT ... WHERE id = $1` row lookup. -/
def lookupAccount (st : AccountStore) (i : ℤ) : Option Account :=
  st.find? (fun a => a.id == i)

/-- Model of the SQL `UPDATE accounts SET balance = $2 WHERE id = $1`:
every row with the given id gets the new balance; updating an absent id
succeeds and changes nothing, as the SQL statement does. -/
def setBalance (st : AccountStore) (i : ℤ) (b : String) : AccountStore :=
  st.map (fun a => if a.id = i then { a with balance := b } else a)

/-- The event envelope (`domain.TransactionEvent`). -/
structure TransactionEvent where
  transactionId : ℤ
  sourceAccountId : ℤ
  destinationAccountId : ℤ
  amount : String
  status : String
deriving DecidableEq

/-- A published message: AMQP routing key plus payload. -/
structure Published where
  topic : String
  event : TransactionEvent
deriving DecidableEq

def submittedTopic : String := "transaction.submitted"
def completedTopic : String := "transaction.completed"
def failedTopic : String := "transaction.failed"

/-- The failed event the mutator publishes: same ids and amount, with the
status replaced by the failure reason. -/
def failedEvent (ev : TransactionEvent) (reason : String) : TransactionEvent :=
  { ev with status := reason }

/-- How a handler invocation ends: returning nil, returning a non-nil
error, or panicking (a nil `*big.Float` dereference or an `ErrNaN`). -/
inductive HandlerResult where
  | ok
  | fail
  | panics
deriving DecidableEq

/-- Injected repository faults for the account service: per-account-id
failure of `GetByID` reads and of `Update` writes.  The Postgres
`GetByID` returns an error both on an infrastructure failure and on a
missing row (it has no `pgx.ErrNoRows` special case), and the Go handler's
`err != nil` and `account == nil` branches publish the same failed event
and both return a non-nil error, so a read modelled as `none` covers both. -/
structure RepoEnv where
  getFails : ℤ → Bool
  updateFails : ℤ → Bool

/-- A repository read as the mutator observes it. -/
def getByID (env : RepoEnv) (st : AccountStore) (i : ℤ) : Option Account :=
  if env.getFails i then none else lookupAccount st i

/-- Result of one `HandleTransactionSubmitted` invocation: the store as
persisted afterwards, the events published (in order), and how the
handler returned. -/
structure MutatorOutput where
  store : AccountStore
  published : List Published
  result : HandlerResult
deriving DecidableEq

/-- Model of `HandleTransactionSubmitted` in the account service, step for
step: load source then destination (publishing a failed event and
returning an error when a load fails or finds no row), re-validate the
amount, parse the three decimal strings with `SetString` (ignoring `ok`,
so an unparsable stored balance or an untrimmed amount leads to a nil
dereference in `Cmp`/`Add`, modelled as a panic), compare source balance
to amount, subtract and add at 64-bit precision, render both new balances
with `Text('f', 2)`, persist the source update then the destination
update as two separate writes, and finally publish the completed event.
Publish errors are only logged in Go and never change the control flow,
so publishing is modelled as always succeeding. -/
def handleTransactionSubmitted (env : RepoEnv) (st : AccountStore)
    (ev : TransactionEvent) : MutatorOutput :=
  match getByID env st ev.sourceAccountId with
  | none =>
      ⟨st, [⟨failedTopic, failedEvent ev "failed: source account not found"⟩], .fail⟩
  | some src =>
    match getByID env st ev.destinationAccountId with
    | none =>
        ⟨st, [⟨failedTopic, failedEvent ev "failed: destination account not found"⟩], .fail⟩
    | some dst =>
      if validateAmount ev.amount ≠ .ok then
        ⟨st, [⟨failedTopic, failedEvent ev "failed: invalid amount"⟩], .fail⟩
      else
        match parseBigFloat src.balance, parseBigFloat ev.amount with
        | some sb, some am =>
          if mutLt sb am then
            ⟨st, [⟨failedTopic, failedEvent ev "failed: insufficient funds"⟩], .fail⟩
          else
            match mutSub sb am with
            | none => ⟨st, [], .panics⟩
            | some sb' =>
              match parseBigFloat dst.balance with
              | none => ⟨st, [], .panics⟩
              | some db =>
                match mutAdd db am with
                | none => ⟨st, [], .panics⟩
                | some db' =>
                  if env.updateFails ev.sourceAccountId then
                    ⟨st, [⟨failedTopic,
                      failedEvent ev "failed: could not update source account"⟩], .fail⟩
                  else
                    let st1 := setBalance st ev.sourceAccountId (mutText2 sb')
                    if env.updateFails ev.destinationAccountId then
                      ⟨st1, [⟨failedTopic,
                        failedEvent ev "failed: could not update destination account"⟩], .fail⟩
                    else
                      ⟨setBalance st1 ev.destinationAccountId (mutText2 db'),
                        [⟨completedTopic, { ev with status := "complete" }⟩], .ok⟩
        | _, _ => ⟨st, [], .panics⟩

/-- A fault-free repository environment. -/
def cleanEnv : RepoEnv := ⟨fun _ => false, fun _ => false⟩

/-- Transaction status (`domain.TransactionStatus`). -/
inductive TxStatus where
  | pending
  | complete
  | failed
  | rollback
deriving DecidableEq

/-- A transaction row (`domain.Transaction`; timestamps are set by the
database and play no role in the embedded logic). -/
structure Transaction where
  id : ℤ
  sourceAccountId : ℤ
  destinationAccountId : ℤ
  amount : String
  status : TxStatus
deriving DecidableEq

/-- The transactions store, keyed by transaction id. -/
abbrev TxStore := List Transaction

/-- Model of the transaction repository's `GetByID`: it maps
`pgx.ErrNoRows` to `(nil, nil)`, so a missing row is `none`. -/
def lookupTx (st : TxStore) (i : ℤ) : Option Transaction :=
  st.find? (fun t => t.id == i)

/-- Model of the transaction repository's `Update`
(`UPDATE transactions SET status = $1 WHERE id = $2`). -/
def setTxStatus (st : TxStore) (i : ℤ) (s : TxStatus) : TxStore :=
  st.map (fun t => if t.id = i then { t with status := s } else t)

/-- Model of `HandleTransactionCompleted` in the transaction service: load
the transaction and set its status to `complete`.  Unlike its `failed`
counterpart it has no nil check, so an unknown transaction id leads to a
nil-pointer dereference (`transaction.Status = ...` on a nil
`*domain.Transaction`), modelled as a panic. -/
def handleTransactionCompleted (st : TxStore) (ev : TransactionEvent) :
    TxStore × HandlerResult :=
  match lookupTx st ev.transactionId with
  | none => (st, .panics)
  | some t => (setTxStatus st t.id .complete, .ok)

/-- Model of `HandleTransactionFailed` in the transaction service: load the
transaction, return nil (success) when it is unknown, otherwise set its
status to `failed`. -/
def handleTransactionFailed (st : TxStore) (ev : TransactionEvent) :
    TxStore × HandlerResult :=
  match lookupTx st ev.transactionId with
  | none => (st, .ok)
  | some t => (setTxStatus st t.id .failed, .ok)

/-- The data carried by a `SubmitTransaction` request
(`application.TransactionDTO`). -/
structure TransactionDTO where
  sourceAccountId : ℤ
  destinationAccountId : ℤ
  amount : String
deriving DecidableEq

/-- How `SubmitTransaction` returns, matching the errors the Go code can
produce: `ErrSameAccount`, a wrapped repository `Create` error, or a
wrapped publish error (after which the row is degraded to `failed`). -/
inductive SubmitResult where
  | created
  | errSameAccount
  | errCreateFailed
  | errPublishFailed
deriving DecidableEq

/-- Model of `SubmitTransaction` in the transaction service: reject only
`source == destination`, persist a `pending` row (the database assigns
`newId`), publish the submitted event carrying status "pending", and on a
publish failure mark the row `failed` and surface the error.  The Go code
performs no validation of the amount string. -/
def submitTransaction (createFails publishFails : Bool) (st : TxStore)
    (newId : ℤ) (dto : TransactionDTO) : TxStore × List Published × SubmitResult :=
  if dto.sourceAccountId = dto.destinationAccountId then (st, [], .errSameAccount)
  else if createFails then (st, [], .errCreateFailed)
  else
    let row : Transaction :=
      ⟨newId, dto.sourceAccountId, dto.destinationAccountId, dto.amount, .pending⟩
    let st1 := st ++ [row]
    if publishFails then (setTxStatus st1 newId .failed, [], .errPublishFailed)
    else
      (st1,
        [⟨submittedTopic,
          ⟨newId, dto.sourceAccountId, dto.destinationAccountId, dto.amount, "pending"⟩⟩],
        .created)

/-- HTTP status the transaction handler maps a `SubmitTransaction` outcome
to (`ErrSameAccount` → 400; repository and publish failures fall to the
default 500; the 400/404 mappings for `ErrInvalidAmount`,
`ErrInsufficientFunds` and `ErrAccountNotFound` exist in the handler but
`SubmitTransaction` never returns those errors). -/
def submitHTTPStatus : SubmitResult → ℕ
  | .created => 201
  | .errSameAccount => 400
  | .errCreateFailed => 500
  | .errPublishFailed => 500

/-- Errors of the account service's `GetAccount`.  `accountNotFound`
(`ErrAccountNotFound`, mapped to 404) exists in the code but is
unreachable: the account repository's `GetByID` wraps every `QueryRow`
error — including `pgx.ErrNoRows` for a missing account — in a generic
error, and never returns `(nil, nil)`. -/
inductive GetAccountError where
  | invalidAccountId
  | accountNotFound
  | repoError
deriving DecidableEq

deriving instance DecidableEq for Except

/-- Model of the account service's `GetAccount`: validate `id > 0`, then
query the repository.  A missing row surfaces as the repository's error
(`failed to get account: ...`), not as `ErrAccountNotFound`. -/
def accountServiceGetAccount (st : AccountStore) (i : ℤ) :
    Except GetAccountError Account :=
  if i ≤ 0 then .error .invalidAccountId
  else
    match lookupAccount st i with
    | none => .error .repoError
    | some a => .ok a

/-- HTTP status of `GET /accounts/:id` as the handler maps it:
`ErrAccountNotFound` → 404, `ErrInvalidAccountID` → 400, anything else →
500. -/
def getAccountHTTPStatus (st : AccountStore) (i : ℤ) : ℕ :=
  match accountServiceGetAccount st i with
  | .ok _ => 200
  | .error .accountNotFound => 404
  | .error .invalidAccountId => 400
  | .error .repoError => 500

/-- State of one logical message in the account service's consumer loop
(`SubscribeToTransactionEvents`): still queued with the `x-retry-count`
header value, acknowledged after success, or dead-lettered.  A republished
copy counts as the same logical message with its incremented header (the
header survives the AMQP round trip: the Go `int` is encoded as an int32
field, which is what the `.(int32)` assertion reads back). -/
inductive MsgState where
  | queued (retryCount : ℕ)
  | acked
  | dead
deriving DecidableEq

/-- One delivery of the message, given whether the handler returns an
error: with the counter at the ceiling the message is nacked to the
dead-letter queue without invoking the handler; otherwise the handler
runs; on error the counter is incremented and the message is either
dead-lettered (counter at ceiling) or republished with the new counter;
on success the message is acknowledged.  The republish is modelled as
succeeding (its error is only logged in Go). -/
def brokerStep : MsgState → Bool → MsgState
  | .queued rc, handlerErr =>
    if 3 ≤ rc then .dead
    else if handlerErr then (if 3 ≤ rc + 1 then .dead else .queued (rc + 1))
    else .acked
  | s, _ => s

/-- Whether the next delivery in the given state invokes the handler. -/
def handlerRuns : MsgState → Bool
  | .queued rc => rc < 3
  | _ => false

/-- A delivery whose handler always fails. -/
def stepFail (s : MsgState) : MsgState := brokerStep s true

theorem stepFail_iterate_ge (n : ℕ) (h : 3 ≤ n) :
    stepFail^[n] (MsgState.queued 0) = .dead := by
  obtain ⟨k, rfl⟩ : ∃ k, n = 3 + k := ⟨n - 3, by omega⟩
  induction k with
  | zero => rfl
  | succ k ih =>
    have he : 3 + (k + 1) = (3 + k) + 1 := by omega
    rw [he, Function.iterate_succ_apply', ih (by omega)]
    rfl

theorem lookupTx_id (st : TxStore) (i : ℤ) (t : Transaction)
    (h : lookupTx st i = some t) : t.id = i := by
  have hp := List.find?_some h
  simpa using hp

theorem lookupTx_setTxStatus (st : TxStore) (i j : ℤ) (s : TxStatus) :
    lookupTx (setTxStatus st i s) j =
      (lookupTx st j).map
        (fun t => if t.id = i then { t with status := s } else t) := by
  induction st with
  | nil => rfl
  | cons t st ih =>
    have hid : (if t.id = i then { t with status := s } else t).id = t.id := by
      split <;> rfl
    by_cases hj : t.id = j
    · simp only [setTxStatus, List.map_cons, lookupTx, List.find?_cons]
      have h1 : ((if t.id = i then { t with status := s } else t).id == j) = true := by
        rw [hid]
        exact beq_iff_eq.mpr hj
      have h2 : (t.id == j) = true := beq_iff_eq.mpr hj
      rw [h1, h2]
      rfl
    · simp only [setTxStatus, List.map_cons, lookupTx, List.find?_cons]
      have h1 : ((if t.id = i then { t with status := s } else t).id == j) = false := by
        rw [hid]
        exact beq_eq_false_iff_ne.mpr hj
      have h2 : (t.id == j) = false := beq_eq_false_iff_ne.mpr hj
      rw [h1, h2]
      exact ih

/-- C2 (amended): for every "submitted" event whose processing ends in
failure, both persisted balances equal their values from before the
attempt, unless the source write succeeded and the destination write then
failed — in that one case the source balance retains the debit (the two
balance writes are separate, non-atomic updates).  The hypothesis
excludes exactly that case: either the source write itself fails, or the
destination write does not fail. -/
theorem c2_no_op_on_failure_amended (env : RepoEnv) (st : AccountStore)
    (ev : TransactionEvent)
    (hsafe : env.updateFails ev.sourceAccountId = true ∨
      env.updateFails ev.destinationAccountId = false)
    (hfail : (handleTransactionSubmitted env st ev).result = .fail) :
    (handleTransactionSubmitted env st ev).store = st := by
  unfold handleTransactionSubmitted at hfail ⊢
  rcases hsafe with hs | hs
  · repeat' split at hfail
    all_goals simp_all
  · repeat' split at hfail
    all_goals simp_all

/-- C2 counterexample: when only the destination write fails, the handler
fails — but the persisted source balance is already "60.00", not its
pre-attempt value "100.00": the debit survives the failed attempt. -/
theorem c2_no_op_on_failure_counterexample :
    handleTransactionSubmitted ⟨fun _ => false, fun i => i == 2⟩
        [⟨1, "100.00"⟩, ⟨2, "0.00"⟩] ⟨7, 1, 2, "40.00", "pending"⟩ =
      ⟨[⟨1, "60.00"⟩, ⟨2, "0.00"⟩],
        [⟨failedTopic, ⟨7, 1, 2, "40.00", "failed: could not update destination account"⟩⟩],
        .fail⟩ ∧
    ([⟨1, "60.00"⟩, ⟨2, "0.00"⟩] : AccountStore) ≠ [⟨1, "100.00"⟩, ⟨2, "0.00"⟩] :=
  ⟨by set_option maxRecDepth 20000 in decide, by decide⟩

/-- C2 witness: when the source write fails, the attempt fails and the
store is unchanged. -/
theorem c2_no_op_on_failure_witness :
    (handleTransactionSubmitted ⟨fun _ => false, fun i => i == 1⟩
        [⟨1, "100.00"⟩, ⟨2, "0.00"⟩] ⟨7, 1, 2, "40.00", "pending"⟩).store =
      [⟨1, "100.00"⟩, ⟨2, "0.00"⟩] :=
  c2_no_op_on_failure_amended ⟨fun _ => false, fun i => i == 1⟩
    [⟨1, "100.00"⟩, ⟨2, "0.00"⟩] ⟨7, 1, 2, "40.00", "pending"⟩
    (Or.inl (by decide)) (by set_option maxRecDepth 20000 in decide)

/-- C3 (amended): for a stored transaction, redelivering the same terminal
event is a no-op that returns success (the status is overwritten with the
value it already has), but the handlers perform no terminal-state check:
a "failed" event delivered to a transaction already in the terminal state
`complete` overwrites it to `failed` (and symmetrically a "completed"
event overwrites `failed`), so terminal statuses are not monotonic. -/
theorem c3_terminal_status_amended (st : TxStore) (ev : TransactionEvent)
    (t : Transaction) (ht : lookupTx st ev.transactionId = some t) :
    (t.status = .complete →
      handleTransactionCompleted st ev = (setTxStatus st t.id .complete, .ok) ∧
      lookupTx (handleTransactionCompleted st ev).1 ev.transactionId = some t) ∧
    (handleTransactionFailed st ev = (setTxStatus st t.id .failed, .ok) ∧
      lookupTx (handleTransactionFailed st ev).1 ev.transactionId =
        some { t with status := .failed }) := by
  have h1 : handleTransactionCompleted st ev = (setTxStatus st t.id .complete, .ok) := by
    rw [handleTransactionCompleted, ht]
  have h2 : handleTransactionFailed st ev = (setTxStatus st t.id .failed, .ok) := by
    rw [handleTransactionFailed, ht]
  constructor
  · intro hstat
    refine ⟨h1, ?_⟩
    rw [h1]
    show lookupTx (setTxStatus st t.id .complete) ev.transactionId = some t
    rw [lookupTx_setTxStatus, ht, Option.map_some', if_pos rfl]
    have he : ({ t with status := TxStatus.complete } : Transaction) = t := by
      obtain ⟨a, b, c, d, s0⟩ := t
      simp only at hstat
      rw [hstat]
    rw [he]
  · refine ⟨h2, ?_⟩
    rw [h2]
    show lookupTx (setTxStatus st t.id .failed) ev.transactionId =
      some { t with status := .failed }
    rw [lookupTx_setTxStatus, ht, Option.map_some', if_pos rfl]

/-- C3 counterexample: a transaction whose status is already the terminal
`complete` receives a "failed" terminal event; the handler overwrites the
status to `failed` and returns success — the terminal status changed. -/
theorem c3_terminal_status_counterexample :
    lookupTx [⟨5, 1, 2, "40.00", .complete⟩] 5 = some ⟨5, 1, 2, "40.00", .complete⟩ ∧
    handleTransactionFailed [⟨5, 1, 2, "40.00", .complete⟩]
        ⟨5, 1, 2, "40.00", "failed"⟩ =
      ([⟨5, 1, 2, "40.00", .failed⟩], .ok) ∧
    TxStatus.complete ≠ TxStatus.failed := by decide

/-- C3 witness: for a concrete `complete` transaction, redelivering
"completed" leaves the row unchanged and succeeds, while a "failed"
delivery overwrites the status. -/
theorem c3_terminal_status_witness :
    (handleTransactionCompleted [⟨5, 1, 2, "40.00", .complete⟩]
        ⟨5, 1, 2, "40.00", "complete"⟩ =
      (setTxStatus [⟨5, 1, 2, "40.00", .complete⟩] 5 .complete, .ok) ∧
      lookupTx (handleTransactionCompleted [⟨5, 1, 2, "40.00", .complete⟩]
          ⟨5, 1, 2, "40.00", "complete"⟩).1 5 =
        some ⟨5, 1, 2, "40.00", .complete⟩) ∧
    (handleTransactionFailed [⟨5, 1, 2, "40.00", .complete⟩]
        ⟨5, 1, 2, "40.00", "complete"⟩ =
      (setTxStatus [⟨5, 1, 2, "40.00", .complete⟩] 5 .failed, .ok) ∧
      lookupTx (handleTransactionFailed [⟨5, 1, 2, "40.00", .complete⟩]
          ⟨5, 1, 2, "40.00", "complete"⟩).1 5 =
        some ⟨5, 1, 2, "40.00", .failed⟩) := by
  have h := c3_terminal_status_amended [⟨5, 1, 2, "40.00", .complete⟩]
    ⟨5, 1, 2, "40.00", "complete"⟩ ⟨5, 1, 2, "40.00", .complete⟩ (by decide)
  exact ⟨h.1 rfl, h.2⟩

/-- C4: a message whose handler fails on every invocation is delivered
with retry counters 0, 1 and 2 — the handler runs exactly on those three
deliveries and on no later one — and after the third failing delivery the
message is dead-lettered (nacked into the dead-letter queue, never
dropped); the handler is never invoked a fourth time. -/
theorem c4_bounded_retry :
    (∀ n : ℕ, handlerRuns (stepFail^[n] (MsgState.queued 0)) = true ↔ n < 3) ∧
    (∀ n : ℕ, 3 ≤ n → stepFail^[n] (MsgState.queued 0) = MsgState.dead) := by
  constructor
  · intro n
    by_cases h3 : 3 ≤ n
    · rw [stepFail_iterate_ge n h3]
      simp only [handlerRuns]
      constructor
      · intro h
        exact absurd h (by simp)
      · intro h
        omega
    · have hlt : n < 3 := by omega
      interval_cases n <;> decide
  · exact stepFail_iterate_ge

/-- C4 witness: the third delivery (counter 2) still runs the handler, and
after three failing deliveries the message sits in the dead-letter
queue. -/
theorem c4_bounded_retry_witness :
    handlerRuns (stepFail^[2] (MsgState.queued 0)) = true ∧
    stepFail^[3] (MsgState.queued 0) = MsgState.dead :=
  ⟨(c4_bounded_retry.1 2).mpr (by omega), c4_bounded_retry.2 3 (by omega)⟩

/-- C5: `SubmitTransaction` performs no validation of the amount.  With
amount "-5.00" it persists a pending row and publishes the submitted
event, returning success (HTTP 201) — the claimed immediate rejection
with a validation error happens only for source == destination. -/
theorem c5_submit_skips_amount_validation :
    submitTransaction false false [] 1 ⟨1, 2, "-5.00"⟩ =
      ([⟨1, 1, 2, "-5.00", .pending⟩],
        [⟨submittedTopic, ⟨1, 1, 2, "-5.00", "pending"⟩⟩], .created) ∧
    submitHTTPStatus .created = 201 ∧
    submitTransaction false false [] 1 ⟨1, 1, "40.00"⟩ = ([], [], .errSameAccount) ∧
    submitHTTPStatus .errSameAccount = 400 := by decide

/-- C6 (amended): for every "submitted" event that fails for a business
reason — a missing (or unreadable) source account, a missing destination
account, an amount failing `validateAmount`, or insufficient funds — the
Balance Mutator publishes the corresponding "failed" event, leaves the
store unchanged, and returns a non-nil error; consequently the channel
does not simply acknowledge the message: it republishes it with an
incremented retry counter, the handler is invoked again on each
redelivery, and after the retry ceiling the message is dead-lettered. -/
theorem c6_business_failure_retried (env : RepoEnv) (st : AccountStore)
    (ev : TransactionEvent) :
    (getByID env st ev.sourceAccountId = none →
      handleTransactionSubmitted env st ev =
        ⟨st, [⟨failedTopic, failedEvent ev "failed: source account not found"⟩], .fail⟩) ∧
    (∀ src : Account, getByID env st ev.sourceAccountId = some src →
      getByID env st ev.destinationAccountId = none →
      handleTransactionSubmitted env st ev =
        ⟨st, [⟨failedTopic, failedEvent ev "failed: destination account not found"⟩],
          .fail⟩) ∧
    (∀ src dst : Account, getByID env st ev.sourceAccountId = some src →
      getByID env st ev.destinationAccountId = some dst →
      validateAmount ev.amount ≠ .ok →
      handleTransactionSubmitted env st ev =
        ⟨st, [⟨failedTopic, failedEvent ev "failed: invalid amount"⟩], .fail⟩) ∧
    (∀ (src dst : Account) (sb am : MutFloat),
      getByID env st ev.sourceAccountId = some src →
      getByID env st ev.destinationAccountId = some dst →
      validateAmount ev.amount = .ok →
      parseBigFloat src.balance = some sb → parseBigFloat ev.amount = some am →
      mutLt sb am = true →
      handleTransactionSubmitted env st ev =
        ⟨st, [⟨failedTopic, failedEvent ev "failed: insufficient funds"⟩], .fail⟩) ∧
    (brokerStep (MsgState.queued 0) true = MsgState.queued 1 ∧
      handlerRuns (MsgState.queued 1) = true ∧
      brokerStep (MsgState.queued 1) true = MsgState.queued 2 ∧
      handlerRuns (MsgState.queued 2) = true ∧
      brokerStep (MsgState.queued 2) true = MsgState.dead) := by
  refine ⟨?_, ?_, ?_, ?_, by decide, by decide, by decide, by decide, by decide⟩
  · intro hmiss
    rw [handleTransactionSubmitted, hmiss]
  · intro src hsrc hmiss
    simp only [handleTransactionSubmitted, hsrc, hmiss]
  · intro src dst hsrc hdst hbad
    simp only [handleTransactionSubmitted, hsrc, hdst]
    rw [if_pos hbad]
  · intro src dst sb am hsrc hdst hval hsb ham hlt
    simp only [handleTransactionSubmitted, hsrc, hdst, hsb, ham]
    rw [if_neg (by simp [hval]), if_pos hlt]

/-- C6 counterexample: a missing source account makes the handler publish
a "failed" event and return an error; the channel then republishes the
message (it is not acknowledged as done) and the handler runs again on
the redelivery — the permanent business failure is retried. -/
theorem c6_business_failure_counterexample :
    (handleTransactionSubmitted cleanEnv [] ⟨7, 1, 2, "40.00", "pending"⟩).published =
      [⟨failedTopic, ⟨7, 1, 2, "40.00", "failed: source account not found"⟩⟩] ∧
    (handleTransactionSubmitted cleanEnv [] ⟨7, 1, 2, "40.00", "pending"⟩).result = .fail ∧
    brokerStep (MsgState.queued 0) true = MsgState.queued 1 ∧
    MsgState.queued 1 ≠ MsgState.acked ∧
    handlerRuns (MsgState.queued 1) = true := by decide

/-- C6 witness: all four business-failure cases at concrete inputs —
missing source, missing destination, invalid amount "-5.00", and the
spec's Scenario D (amount "150.00" against balance "100.00") — each
publishing its failed event, leaving the store unchanged and returning an
error. -/
theorem c6_business_failure_witness :
    handleTransactionSubmitted cleanEnv [] ⟨7, 1, 2, "40.00", "pending"⟩ =
      ⟨[], [⟨failedTopic, ⟨7, 1, 2, "40.00", "failed: source account not found"⟩⟩],
        .fail⟩ ∧
    handleTransactionSubmitted cleanEnv [⟨1, "100.00"⟩] ⟨7, 1, 2, "40.00", "pending"⟩ =
      ⟨[⟨1, "100.00"⟩],
        [⟨failedTopic, ⟨7, 1, 2, "40.00", "failed: destination account not found"⟩⟩],
        .fail⟩ ∧
    handleTransactionSubmitted cleanEnv [⟨1, "100.00"⟩, ⟨2, "0.00"⟩]
        ⟨7, 1, 2, "-5.00", "pending"⟩ =
      ⟨[⟨1, "100.00"⟩, ⟨2, "0.00"⟩],
        [⟨failedTopic, ⟨7, 1, 2, "-5.00", "failed: invalid amount"⟩⟩], .fail⟩ ∧
    handleTransactionSubmitted cleanEnv [⟨1, "100.00"⟩, ⟨2, "0.00"⟩]
        ⟨7, 1, 2, "150.00", "pending"⟩ =
      ⟨[⟨1, "100.00"⟩, ⟨2, "0.00"⟩],
        [⟨failedTopic, ⟨7, 1, 2, "150.00", "failed: insufficient funds"⟩⟩], .fail⟩ :=
  ⟨(c6_business_failure_retried cleanEnv [] ⟨7, 1, 2, "40.00", "pending"⟩).1
      (by decide),
    (c6_business_failure_retried cleanEnv [⟨1, "100.00"⟩]
        ⟨7, 1, 2, "40.00", "pending"⟩).2.1 ⟨1, "100.00"⟩ (by decide) (by decide),
    (c6_business_failure_retried cleanEnv [⟨1, "100.00"⟩, ⟨2, "0.00"⟩]
        ⟨7, 1, 2, "-5.00", "pending"⟩).2.2.1 ⟨1, "100.00"⟩ ⟨2, "0.00"⟩
      (by decide) (by decide) (by decide),
    (c6_business_failure_retried cleanEnv [⟨1, "100.00"⟩, ⟨2, "0.00"⟩]
        ⟨7, 1, 2, "150.00", "pending"⟩).2.2.2.1 ⟨1, "100.00"⟩ ⟨2, "0.00"⟩
      (MutFloat.fin (round64 ⟨10000, ⟨100, by norm_num⟩⟩))
      (MutFloat.fin (round64 ⟨15000, ⟨100, by norm_num⟩⟩))
      (by decide) (by decide) (by decide)
      (by set_option maxRecDepth 20000 in decide)
      (by set_option maxRecDepth 20000 in decide)
      (by set_option maxRecDepth 20000 in decide)⟩

/-- C7: a terminal event whose transaction id matches no stored
transaction is handled asymmetrically: `HandleTransactionFailed` returns
success as the claim states, but `HandleTransactionCompleted` has no nil
check and dereferences the nil transaction — a panic, not a success. -/
theorem c7_unknown_transaction_panics :
    handleTransactionCompleted [] ⟨42, 1, 2, "40.00", "complete"⟩ = ([], .panics) ∧
    handleTransactionFailed [] ⟨42, 1, 2, "40.00", "failed"⟩ = ([], .ok) := by decide

/-- C8 (amended): for every "submitted" event whose amount fails
`validateAmount` — malformed as a decimal, or strictly negative — the
Balance Mutator publishes a "failed: invalid amount" event, performs no
balance write, and returns an error.  (A zero amount is NOT rejected:
`validateAmount` only checks `Sign() < 0`, so "0" passes and is processed
as a transfer of zero — see the counterexample.) -/
theorem c8_invalid_amount_rejected (env : RepoEnv) (st : AccountStore)
    (ev : TransactionEvent) (src dst : Account)
    (hsrc : getByID env st ev.sourceAccountId = some src)
    (hdst : getByID env st ev.destinationAccountId = some dst)
    (hbad : validateAmount ev.amount ≠ .ok) :
    handleTransactionSubmitted env st ev =
      ⟨st, [⟨failedTopic, failedEvent ev "failed: invalid amount"⟩], .fail⟩ := by
  simp only [handleTransactionSubmitted, hsrc, hdst]
  rw [if_pos hbad]

/-- C8 counterexample: the amount "0" passes `validateAmount` and the
event completes: a "complete" event is published and the handler returns
success, instead of the claimed rejection of non-positive amounts. -/
theorem c8_zero_amount_counterexample :
    validateAmount "0" = .ok ∧
    handleTransactionSubmitted cleanEnv [⟨1, "10.00"⟩, ⟨2, "5.00"⟩]
        ⟨7, 1, 2, "0", "pending"⟩ =
      ⟨[⟨1, "10.00"⟩, ⟨2, "5.00"⟩],
        [⟨completedTopic, ⟨7, 1, 2, "0", "complete"⟩⟩], .ok⟩ :=
  ⟨by decide, by set_option maxRecDepth 20000 in decide⟩

/-- C8 witness: amount "-5.00" on existing accounts yields exactly the
"failed: invalid amount" event, an unchanged store and an error return. -/
theorem c8_invalid_amount_witness :
    handleTransactionSubmitted cleanEnv [⟨1, "10.00"⟩, ⟨2, "5.00"⟩]
        ⟨7, 1, 2, "-5.00", "pending"⟩ =
      ⟨[⟨1, "10.00"⟩, ⟨2, "5.00"⟩],
        [⟨failedTopic, ⟨7, 1, 2, "-5.00", "failed: invalid amount"⟩⟩], .fail⟩ :=
  c8_invalid_amount_rejected cleanEnv [⟨1, "10.00"⟩, ⟨2, "5.00"⟩]
    ⟨7, 1, 2, "-5.00", "pending"⟩ ⟨1, "10.00"⟩ ⟨2, "5.00"⟩
    (by decide) (by decide) (by decide)

/-- C9: a `GetAccount` request with a well-formed positive id naming no
existing account returns HTTP 500, not the claimed 404: the account
repository's `GetByID` wraps `pgx.ErrNoRows` in a generic error, so the
service's `ErrAccountNotFound` path is unreachable and the handler falls
through to the infrastructure-error default. -/
theorem c9_missing_account_http_500 :
    getAccountHTTPStatus [] 5 = 500 ∧
    ¬ getAccountHTTPStatus [] 5 = 404 ∧
    getAccountHTTPStatus [⟨5, "10.00"⟩] 5 = 200 ∧
    getAccountHTTPStatus [] 0 = 400 ∧
    accountServiceGetAccount [] 5 = .error .repoError := by decide

end SeamlessTransfer
